import Mathlib

/-!
# rtenkit Go bindings: handle lifecycle and buffer marshaling

A shallow embedding of `bindings/go/cgo.go`.

* A Go function that may touch the foreign library is a function
  `World → result × World`; the `World` records what the foreign side holds
  (live handles, live raw buffers), the finalizers Go has registered, and the
  chronological trace of boundary events.
* The foreign library itself (`kitoken_*`, `embeddings_*`) and the file system
  are not part of the Go source; they are the fields of `Env`, and every
  theorem quantifies over `Env` unless it says otherwise.
* `[]byte`, `string`, `[]uint32` and `[]float32` are lists of naturals (a
  `float32` is carried as its 32 bit pattern: the bindings only copy floats).
  A `nil` slice is the empty list.
* `size_t` is 64 bits wide and Go `int` is the 64 bit signed integer; the
  conversions `int(x)` and `C.size_t(x)` and the products wrap.
* A Go call ends in `(value, nil)`, `(zero, err)` or a run-time panic: `Res`.
  Memory exhaustion in `make` is not modelled.
* Receivers are constructed facades (non-nil `*Kitoken`, `*Embeddings`,
  `*Embedder`).
* The garbage collector is not modelled: `runtime.SetFinalizer` is recorded in
  `World.finalizers`, and no finalizer runs inside a call of the bindings.
-/

namespace rtenkit

/-! ## Data model -/

/-- An `unsafe.Pointer` / `void*`; address `0` is `nil`. -/
abbrev Ptr := Nat

/-- The nil pointer. -/
abbrev nil : Ptr := 0

/-- The values built by `fmt.Errorf` in `cgo.go`, plus the error of `os.ReadFile`. -/
inductive GoError where
  /-- "empty model data" -/
  | emptyModelData
  /-- "failed to create tokenizer" -/
  | failedCreateTokenizer
  /-- "tokenizer is closed" -/
  | tokenizerClosed
  /-- "encoding failed" -/
  | encodingFailed
  /-- "decoding failed" -/
  | decodingFailed
  /-- "empty embeddings model data" -/
  | emptyEmbeddingsModelData
  /-- "failed to create embeddings" -/
  | failedCreateEmbeddings
  /-- "embeddings is closed" -/
  | embeddingsClosed
  /-- "embedding failed" -/
  | embeddingFailed
  /-- the `*PathError` of `os.ReadFile` on the given path -/
  | readFile (path : String)
  deriving DecidableEq, Repr

/-- The text of each error, as written in the source. -/
def GoError.text : GoError → String
  | .emptyModelData => "empty model data"
  | .failedCreateTokenizer => "failed to create tokenizer"
  | .tokenizerClosed => "tokenizer is closed"
  | .encodingFailed => "encoding failed"
  | .decodingFailed => "decoding failed"
  | .emptyEmbeddingsModelData => "empty embeddings model data"
  | .failedCreateEmbeddings => "failed to create embeddings"
  | .embeddingsClosed => "embeddings is closed"
  | .embeddingFailed => "embedding failed"
  | .readFile path => "open " ++ path

/-- Run-time panics the bindings can raise. -/
inductive Panic where
  /-- `&b[0]` on a slice of length 0: index out of range [0] with length 0 -/
  | indexOutOfRange
  /-- `unsafe.Slice` with a negative length -/
  | sliceLenOutOfRange
  /-- `unsafe.Slice` with a nil pointer and a non-zero length -/
  | slicePtrNil
  /-- a read of foreign memory outside every live raw buffer -/
  | invalidRead
  deriving DecidableEq, Repr

/-- How a Go call of the bindings ends. -/
inductive Res (α : Type) where
  | ok (v : α)
  | err (e : GoError)
  | panic (p : Panic)
  deriving DecidableEq, Repr

/-- What happens at the boundary, in the order it happens: the calls of the
foreign functions of the cgo preamble, and (`read`) the Go side copying `n`
elements out of the foreign memory at `p`. -/
inductive Event where
  | kitoken_new (data : List Nat) (ret : Ptr)
  | kitoken_free (p : Ptr)
  | kitoken_encode (p : Ptr) (text : List Nat) (status : Int)
  | kitoken_decode (p : Ptr) (tokens : List Nat) (status : Int)
  | embeddings_new (data : List Nat) (ret : Ptr)
  | embeddings_free (p : Ptr)
  | embeddings_embed (p : Ptr) (ids : List Int) (status : Int)
  | dealloc (p : Ptr) (size : Nat)
  | dealloc_f32 (p : Ptr) (len : Nat)
  | read (p : Ptr) (n : Nat)
  deriving DecidableEq, Repr

/-- The state on which the bindings act. -/
structure World where
  /-- foreign handles created and not yet destroyed -/
  handles : List Ptr
  /-- raw buffers the foreign side allocated and nobody deallocated: address and cells -/
  heap : List (Ptr × List Nat)
  /-- handles whose Go facade carries a finalizer (`runtime.SetFinalizer`) -/
  finalizers : List Ptr
  /-- boundary events, oldest first -/
  trace : List Event
  deriving DecidableEq, Repr

/-- Nothing allocated, nothing called. -/
def World.empty : World := ⟨[], [], [], []⟩

/-- Append an event to the trace. -/
def World.log (w : World) (e : Event) : World :=
  ⟨w.handles, w.heap, w.finalizers, w.trace ++ [e]⟩

/-- A constructor returned `p`: a non-null `p` is a new live handle. -/
def World.addHandle (w : World) (p : Ptr) : World :=
  if p = nil then w else ⟨p :: w.handles, w.heap, w.finalizers, w.trace⟩

/-- A destructor ran on `p`. -/
def World.dropHandle (w : World) (p : Ptr) : World :=
  ⟨w.handles.erase p, w.heap, w.finalizers, w.trace⟩

/-- The call `runtime.SetFinalizer(facade, Free)` for the facade holding `p`. -/
def World.setFinalizer (w : World) (p : Ptr) : World :=
  ⟨w.handles, w.heap, p :: w.finalizers, w.trace⟩

/-- The foreign side wrote `cells` at `p` (nothing is allocated at nil). -/
def World.alloc (w : World) (p : Ptr) (cells : List Nat) : World :=
  if p = nil then w else ⟨w.handles, (p, cells) :: w.heap, w.finalizers, w.trace⟩

/-- The cells of the live raw buffer at `p`. -/
def World.lookup (w : World) (p : Ptr) : Option (List Nat) :=
  (w.heap.find? (fun b => b.1 == p)).map (fun b => b.2)

/-- The buffer at `p` is returned to the foreign allocator (nil is ignored). -/
def World.release (w : World) (p : Ptr) : World :=
  if p = nil then w
  else ⟨w.handles, w.heap.eraseP (fun b => b.1 == p), w.finalizers, w.trace⟩

/-- Number of live foreign handles. -/
def World.liveHandles (w : World) : Nat := w.handles.length

/-- What `kitoken_encode` and `kitoken_decode` hand back: the status, the two
out-parameters, and the cells the foreign side allocated at `outPtr`. -/
structure RawOut where
  status : Int
  outPtr : Ptr
  outLen : Nat
  cells : List Nat
  deriving DecidableEq, Repr

/-- What `embeddings_embed` hands back. -/
structure EmbedOut where
  status : Int
  outPtr : Ptr
  outCount : Nat
  outDim : Nat
  cells : List Nat
  deriving DecidableEq, Repr

/-- Everything outside the Go source: the file system and the foreign
functions declared in the cgo preamble. A foreign function may depend on the
whole history. `kitoken_free`, `embeddings_free`, `dealloc` and `dealloc_f32`
return nothing; their effect is the bookkeeping in `World`. -/
structure Env where
  readFile : String → Except GoError (List Nat)
  kitoken_new : World → List Nat → Ptr
  kitoken_encode : World → Ptr → List Nat → RawOut
  kitoken_decode : World → Ptr → List Nat → RawOut
  embeddings_new : World → List Nat → Ptr
  embeddings_embed : World → Ptr → List Int → EmbedOut

/-! ## Machine integers

`size_t` values are naturals below `2^64`; Go `int` values are integers in
`[-2^63, 2^63)`. -/

/-- `C.size_t(x)` for a Go `int` `x`: reduction modulo `2^64`. -/
def size_t (x : Int) : Nat := (x % 18446744073709551616).toNat

/-- Go `int(n)` for a `size_t` `n`: the signed value of the low 64 bits. -/
def int (n : Nat) : Int :=
  if n % 18446744073709551616 < 9223372036854775808 then ((n % 18446744073709551616 : Nat) : Int)
  else ((n % 18446744073709551616 : Nat) : Int) - 18446744073709551616

/-- The product `a * b` of two Go `int`s, which wraps to 64 bits. -/
def mulInt (a b : Int) : Int := int (size_t (a * b))

/-- The product `a * b` of two `size_t`s, which wraps to 64 bits. -/
def mulSize (a b : Nat) : Nat := (a * b) % 18446744073709551616

/-- `C.int32_t(t)` for a `uint32` `t`: the signed value of the low 32 bits. -/
def int32_t (t : Nat) : Int :=
  if t % 4294967296 < 2147483648 then ((t % 4294967296 : Nat) : Int)
  else ((t % 4294967296 : Nat) : Int) - 4294967296

/-! ## Views of foreign memory -/

/-- `unsafe.Slice((*T)(p), len)`: panics on a negative length and on a nil
pointer with a non-zero length; otherwise a view of the memory at `p`, which
holds the cells of the live buffer at `p` and nothing else. -/
def Slice (w : World) (p : Ptr) (len : Int) : Except Panic (List Nat) :=
  if len < 0 then .error .sliceLenOutOfRange
  else if p = nil then (if len = 0 then .ok [] else .error .slicePtrNil)
  else .ok ((w.lookup p).getD [])

/-- The loop `for i := 0; i < n; i++ { dst[i] = cArr[i] }` into a fresh
`dst` of length `n`: the state after `n` iterations, or `none` when an
iteration reads past the memory of the view. -/
def copyLoop (cArr : List Nat) : Nat → Option (List Nat)
  | 0 => some []
  | n + 1 =>
    match copyLoop cArr n, cArr[n]? with
    | some dst, some x => some (dst ++ [x])
    | _, _ => none

/-! ## Kitoken -/

/-- `type Kitoken struct { ptr unsafe.Pointer }` -/
structure Kitoken where
  ptr : Ptr
  deriving DecidableEq, Repr

/-- `func NewKitoken(data []byte) (*Kitoken, error)` -/
def NewKitoken (E : Env) (w : World) (data : List Nat) : Res Kitoken × World :=
  if data.length = 0 then (.err .emptyModelData, w)
  else
    let ptr := E.kitoken_new w data
    let w1 := (w.log (.kitoken_new data ptr)).addHandle ptr
    if ptr = nil then (.err .failedCreateTokenizer, w1)
    else
      let tk : Kitoken := ⟨ptr⟩
      (.ok tk, w1.setFinalizer ptr)

/-- `func (t *Kitoken) Free()`: the facade after the call and the world. -/
def Kitoken.Free (w : World) (t : Kitoken) : Kitoken × World :=
  if t.ptr ≠ nil then
    (⟨nil⟩, (w.log (.kitoken_free t.ptr)).dropHandle t.ptr)
  else (t, w)

/-- `func (t *Kitoken) Encode(text string) ([]uint32, error)` -/
def Kitoken.Encode (E : Env) (w : World) (t : Kitoken) (text : List Nat) :
    Res (List Nat) × World :=
  if t.ptr = nil then (.err .tokenizerClosed, w)
  else
    let b := text
    if b.length = 0 then (.panic .indexOutOfRange, w)
    else
      let r := E.kitoken_encode w t.ptr b
      let w1 := (w.log (.kitoken_encode t.ptr b r.status)).alloc r.outPtr r.cells
      if r.status ≠ 0 then (.err .encodingFailed, w1)
      else
        let length := int r.outLen
        match Slice w1 r.outPtr length with
        | .error p => (.panic p, w1)
        | .ok cArr =>
          match copyLoop cArr length.toNat with
          | none => (.panic .invalidRead, w1)
          | some tokens =>
            let w2 := w1.log (.read r.outPtr length.toNat)
            let size := mulSize (size_t length) 4
            (.ok tokens, (w2.log (.dealloc r.outPtr size)).release r.outPtr)

/-- `func (t *Kitoken) Decode(tokens []uint32) (string, error)` -/
def Kitoken.Decode (E : Env) (w : World) (t : Kitoken) (tokens : List Nat) :
    Res (List Nat) × World :=
  if t.ptr = nil then (.err .tokenizerClosed, w)
  else if tokens.length = 0 then (.ok [], w)
  else
    let r := E.kitoken_decode w t.ptr tokens
    let w1 := (w.log (.kitoken_decode t.ptr tokens r.status)).alloc r.outPtr r.cells
    if r.status ≠ 0 then (.err .decodingFailed, w1)
    else
      let length := int r.outLen
      match Slice w1 r.outPtr length with
      | .error p => (.panic p, w1)
      | .ok bytes =>
        match copyLoop bytes length.toNat with
        | none => (.panic .invalidRead, w1)
        | some result =>
          let w2 := w1.log (.read r.outPtr length.toNat)
          (.ok result, (w2.log (.dealloc r.outPtr (size_t (r.outLen : Int)))).release r.outPtr)

/-! ## Embeddings -/

/-- `type Embeddings struct { ptr unsafe.Pointer }` -/
structure Embeddings where
  ptr : Ptr
  deriving DecidableEq, Repr

/-- `func NewEmbeddings(data []byte) (*Embeddings, error)` -/
def NewEmbeddings (E : Env) (w : World) (data : List Nat) : Res Embeddings × World :=
  if data.length = 0 then (.err .emptyEmbeddingsModelData, w)
  else
    let ptr := E.embeddings_new w data
    let w1 := (w.log (.embeddings_new data ptr)).addHandle ptr
    if ptr = nil then (.err .failedCreateEmbeddings, w1)
    else
      let emb : Embeddings := ⟨ptr⟩
      (.ok emb, w1.setFinalizer ptr)

/-- `func (e *Embeddings) Free()`: the facade after the call and the world. -/
def Embeddings.Free (w : World) (e : Embeddings) : Embeddings × World :=
  if e.ptr ≠ nil then
    (⟨nil⟩, (w.log (.embeddings_free e.ptr)).dropHandle e.ptr)
  else (e, w)

/-- `func (e *Embeddings) EmbedTokens(tokens []uint32) ([]float32, error)` -/
def Embeddings.EmbedTokens (E : Env) (w : World) (e : Embeddings) (tokens : List Nat) :
    Res (List Nat) × World :=
  if e.ptr = nil then (.err .embeddingsClosed, w)
  else if tokens.length = 0 then (.ok [], w)
  else
    let intTokens := tokens.map (fun t => int32_t t)
    let r := E.embeddings_embed w e.ptr intTokens
    let w1 := (w.log (.embeddings_embed e.ptr intTokens r.status)).alloc r.outPtr r.cells
    if r.status ≠ 0 then (.err .embeddingFailed, w1)
    else
      let count := int r.outCount
      let dim := int r.outDim
      let total := mulInt count dim
      match Slice w1 r.outPtr total with
      | .error p => (.panic p, w1)
      | .ok cArr =>
        match copyLoop cArr total.toNat with
        | none => (.panic .invalidRead, w1)
        | some result =>
          let w2 := w1.log (.read r.outPtr total.toNat)
          (.ok result, (w2.log (.dealloc_f32 r.outPtr (size_t total))).release r.outPtr)

/-! ## Embedder -/

/-- `type Embedder struct { tokenizer *Kitoken; embeddings *Embeddings }` -/
structure Embedder where
  tokenizer : Kitoken
  embeddings : Embeddings
  deriving DecidableEq, Repr

/-- `func NewEmbedder(modelpath, tokenizerpath string) (*Embedder, error)` -/
def NewEmbedder (E : Env) (w : World) (modelpath tokenizerpath : String) :
    Res Embedder × World :=
  match E.readFile modelpath with
  | .error err => (.err err, w)
  | .ok modeldata =>
    match NewEmbeddings E w modeldata with
    | (.err err, w1) => (.err err, w1)
    | (.panic p, w1) => (.panic p, w1)
    | (.ok emb, w1) =>
      match E.readFile tokenizerpath with
      | .error err => (.err err, w1)
      | .ok tokenizerdata =>
        match NewKitoken E w1 tokenizerdata with
        | (.err err, w2) => (.err err, w2)
        | (.panic p, w2) => (.panic p, w2)
        | (.ok tk, w2) => (.ok ⟨tk, emb⟩, w2)

/-- `func (e *Embedder) Embed(s string) ([]float32, error)` -/
def Embedder.Embed (E : Env) (w : World) (e : Embedder) (s : List Nat) :
    Res (List Nat) × World :=
  match Kitoken.Encode E w e.tokenizer s with
  | (.err err, w1) => (.err err, w1)
  | (.panic p, w1) => (.panic p, w1)
  | (.ok tokens, w1) => Embeddings.EmbedTokens E w1 e.embeddings tokens

/-- `func (e *Embedder) Close()`: the embedder after the call and the world. -/
def Embedder.Close (w : World) (e : Embedder) : Embedder × World :=
  let r1 := e.tokenizer.Free w
  let r2 := e.embeddings.Free r1.2
  (⟨r1.1, r2.1⟩, r2.2)

/-! ## Observations on traces -/

/-- Is the event a call of a foreign destroy primitive? -/
def Event.isDestroy : Event → Bool
  | .kitoken_free _ => true
  | .embeddings_free _ => true
  | _ => false

/-- Is the event a call of `kitoken_free` or `embeddings_free` on `p`? -/
def Event.isDestroyOf (p : Ptr) : Event → Bool
  | .kitoken_free q => q == p
  | .embeddings_free q => q == p
  | _ => false

/-- Is the event a call of `embeddings_embed`? -/
def Event.isEmbedCall : Event → Bool
  | .embeddings_embed _ _ _ => true
  | _ => false

/-- Number of foreign destroy calls in a trace. -/
def destroyCalls (tr : List Event) : Nat := tr.countP Event.isDestroy

/-- Number of foreign destroy calls on the handle `p` in a trace. -/
def destroyCallsOf (p : Ptr) (tr : List Event) : Nat := tr.countP (Event.isDestroyOf p)

/-- Number of `embeddings_embed` calls in a trace. -/
def embedCalls (tr : List Event) : Nat := tr.countP Event.isEmbedCall

/-! ## What a foreign call may be assumed to hand back -/

/-- The out-parameters of `kitoken_encode` or `kitoken_decode` describe a
buffer that exists: the memory at `outPtr` holds at least `outLen` elements of
`width` bytes, the buffer is smaller than `2^63` bytes (it lies in a 64 bit
address space), and a nil `outPtr` comes with length zero. -/
def RawOut.wellFormed (width : Nat) (r : RawOut) : Prop :=
  r.outLen ≤ r.cells.length ∧ width * r.outLen < 9223372036854775808 ∧
    (r.outPtr = nil → r.outLen = 0)

/-- The out-parameters of `embeddings_embed` describe a buffer that exists:
the memory at `outPtr` holds at least `outCount * outDim` floats of 4 bytes,
the buffer is smaller than `2^63` bytes, and a nil `outPtr` comes with no
floats. -/
def EmbedOut.wellFormed (r : EmbedOut) : Prop :=
  r.outCount * r.outDim ≤ r.cells.length ∧ 4 * (r.outCount * r.outDim) < 9223372036854775808 ∧
    (r.outPtr = nil → r.outCount * r.outDim = 0)

/-- Modelled from the spec: the foreign function `embeddings_embed`, whose
implementation is not part of the Go bindings. Section 4.4 and the table of
section 6: a successful call produces `(buffer, count, dimension)`, a buffer of
32-bit floats holding `count × dimension` of them, "row `i` = embedding of
`tokens[i]`", so `count` is the number of ids passed, and `dimension` is the
fixed dimension `d` of the model. The predicate says that the result `r` of a
call on `ids` is of that shape. -/
def embedContract (d : Nat) (ids : List Int) (r : EmbedOut) : Prop :=
  r.status = 0 → r.outCount = ids.length ∧ r.outDim = d ∧ r.wellFormed

/-- Row `i` of a flat row-major matrix with rows of length `d`. -/
def row (flat : List Nat) (d i : Nat) : List Nat := (flat.drop (i * d)).take d

/-! ## The composition the specification describes -/

/-- Sequential composition of two Go calls: run `first`; when it does not
produce a value, stop with its error (or panic) as it is; otherwise run `next`
on the value, in the world `first` left, and return what `next` returns. -/
def andThen {α β : Type} (first : World → Res α × World)
    (next : α → World → Res β × World) (w : World) : Res β × World :=
  let r := first w
  match r.1 with
  | .ok v => next v r.2
  | .err e => (.err e, r.2)
  | .panic p => (.panic p, r.2)

/-- The specification of `Embedder.embed`: "sequences `tokenizer.encode` then
`embedding.embed`, propagating either's error unmodified". -/
def Embed_spec (E : Env) (w : World) (e : Embedder) (s : List Nat) : Res (List Nat) × World :=
  andThen (fun w0 => Kitoken.Encode E w0 e.tokenizer s)
    (fun tokens w1 => Embeddings.EmbedTokens E w1 e.embeddings tokens) w

/-! ## A concrete environment, for evaluating the definitions -/

/-- A toy foreign library and file system: blobs starting with byte `0` are
rejected; the tokenizer maps each byte to one token and back, fails to encode
byte `255` and to decode token `256`; the embedding model has dimension `2`,
embeds id `i` as the row `[i, i + 1]` and fails on id `-1`. -/
def demoEnv : Env where
  readFile := fun path =>
    if path = "model.rten" then .ok [1, 2, 3, 4]
    else if path = "tokenizer.kitoken" then .ok [9, 9]
    else if path = "empty.kitoken" then .ok []
    else if path = "bad.kitoken" then .ok [0, 0, 0, 0]
    else if path = "bad.rten" then .ok [0, 0, 0, 0]
    else .error (.readFile path)
  kitoken_new := fun _ data => if data.head? = some 0 then nil else 11
  kitoken_encode := fun _ _ text =>
    if 255 ∈ text then ⟨1, nil, 0, []⟩ else ⟨0, 1000, text.length, text⟩
  kitoken_decode := fun _ _ tokens =>
    if 256 ∈ tokens then ⟨1, nil, 0, []⟩ else ⟨0, 2000, tokens.length, tokens⟩
  embeddings_new := fun _ data => if data.head? = some 0 then nil else 22
  embeddings_embed := fun _ _ ids =>
    if -1 ∈ ids then ⟨1, nil, 0, 0, []⟩
    else ⟨0, 3000, ids.length, 2, ids.flatMap (fun i => [i.toNat, i.toNat + 1])⟩

/-! ## Auxiliary facts -/

theorem int_of_small (n : Nat) (h : n < 9223372036854775808) : int n = n := by
  unfold int
  have h1 : n % 18446744073709551616 = n := Nat.mod_eq_of_lt (by omega)
  rw [h1, if_pos h]

theorem size_t_of_small (x : Int) (h0 : 0 ≤ x) (h1 : x < 18446744073709551616) :
    size_t x = x.toNat := by
  unfold size_t
  rw [Int.emod_eq_of_lt h0 h1]

theorem size_t_natCast (n : Nat) (h : n < 18446744073709551616) : size_t (n : Int) = n := by
  rw [size_t_of_small _ (by omega) (by omega)]
  exact Int.toNat_natCast n

theorem mulInt_of_small (a b : Nat) (h : a * b < 9223372036854775808) :
    mulInt (a : Int) (b : Int) = ((a * b : Nat) : Int) := by
  unfold mulInt
  have h1 : ((a : Int) * (b : Int)) = ((a * b : Nat) : Int) := by push_cast; rfl
  rw [h1, size_t_natCast _ (by omega), int_of_small _ h]

theorem mulSize_of_small (a b : Nat) (h : a * b < 18446744073709551616) :
    mulSize a b = a * b := by
  unfold mulSize
  exact Nat.mod_eq_of_lt h

theorem int32_t_eq_wrap (t : Nat) :
    int32_t t = ((t : Int) + 2147483648) % 4294967296 - 2147483648 := by
  unfold int32_t
  split <;> omega

theorem int_eq_wrap (n : Nat) :
    int n = ((n : Int) + 9223372036854775808) % 18446744073709551616 - 9223372036854775808 := by
  unfold int
  split <;> omega

theorem copyLoop_length (cArr : List Nat) :
    ∀ (n : Nat) (dst : List Nat), copyLoop cArr n = some dst → dst.length = n := by
  intro n
  induction n with
  | zero =>
    intro dst h
    simp [copyLoop] at h
    simp [← h]
  | succ k ih =>
    intro dst h
    unfold copyLoop at h
    cases hk : copyLoop cArr k with
    | none => simp [hk] at h
    | some acc =>
      cases hx : cArr[k]? with
      | none => simp [hk, hx] at h
      | some x =>
        simp only [hk, hx, Option.some.injEq] at h
        rw [← h, List.length_append, ih acc hk]
        rfl

theorem copyLoop_take (cArr : List Nat) :
    ∀ n : Nat, n ≤ cArr.length → copyLoop cArr n = some (cArr.take n) := by
  intro n
  induction n with
  | zero => intro _; simp [copyLoop]
  | succ k ih =>
    intro h
    have hk : k < cArr.length := by omega
    unfold copyLoop
    rw [ih (by omega), List.getElem?_eq_getElem hk]
    simp only [List.take_succ, List.getElem?_eq_getElem hk, Option.toList]

theorem lookup_alloc (w : World) (p : Ptr) (cells : List Nat) (hp : p ≠ nil) :
    (w.alloc p cells).lookup p = some cells := by
  simp [World.alloc, World.lookup, hp]

theorem release_alloc (w : World) (p : Ptr) (cells : List Nat) :
    ((w.alloc p cells).release p).heap = w.heap := by
  by_cases hp : p = nil
  · simp [World.alloc, World.release, hp]
  · simp [World.alloc, World.release, hp, List.eraseP_cons]

@[simp] theorem log_trace (w : World) (e : Event) : (w.log e).trace = w.trace ++ [e] := rfl

@[simp] theorem alloc_trace (w : World) (p : Ptr) (c : List Nat) :
    (w.alloc p c).trace = w.trace := by
  unfold World.alloc; split <;> rfl

@[simp] theorem release_trace (w : World) (p : Ptr) : (w.release p).trace = w.trace := by
  unfold World.release; split <;> rfl

@[simp] theorem addHandle_trace (w : World) (p : Ptr) : (w.addHandle p).trace = w.trace := by
  unfold World.addHandle; split <;> rfl

@[simp] theorem dropHandle_trace (w : World) (p : Ptr) : (w.dropHandle p).trace = w.trace := rfl

@[simp] theorem setFinalizer_trace (w : World) (p : Ptr) :
    (w.setFinalizer p).trace = w.trace := rfl

theorem Encode_embedCalls (E : Env) (w : World) (t : Kitoken) (text : List Nat) :
    embedCalls (Kitoken.Encode E w t text).2.trace = embedCalls w.trace := by
  unfold Kitoken.Encode
  dsimp only
  split
  · rfl
  · split
    · rfl
    · split
      · simp [embedCalls, Event.isEmbedCall]
      · split
        · simp [embedCalls, Event.isEmbedCall]
        · split
          · simp [embedCalls, Event.isEmbedCall]
          · simp [embedCalls, Event.isEmbedCall]

/-! ## Closed facades (C1) -/

/-- C1: after `Free` the handle is nil, and on a facade whose handle is nil
`Encode`, `Decode` and `EmbedTokens` return the closed-resource error for every
input and leave the world as it was (no foreign call, no read, no
deallocation); `Embed` on a closed `Embedder` fails with the closed-resource
error of the tokenizer for every text, again without touching the world. -/
theorem C1_closed_facade_rejects_every_call (E : Env) (w0 w : World) :
    (∀ t : Kitoken, (t.Free w0).1.ptr = nil) ∧
    (∀ e : Embeddings, (e.Free w0).1.ptr = nil) ∧
    (∀ (t : Kitoken) (text : List Nat),
      Kitoken.Encode E w (t.Free w0).1 text = (.err .tokenizerClosed, w)) ∧
    (∀ (t : Kitoken) (tokens : List Nat),
      Kitoken.Decode E w (t.Free w0).1 tokens = (.err .tokenizerClosed, w)) ∧
    (∀ (e : Embeddings) (tokens : List Nat),
      Embeddings.EmbedTokens E w (e.Free w0).1 tokens = (.err .embeddingsClosed, w)) ∧
    (∀ text tokens : List Nat,
      Kitoken.Encode E w ⟨nil⟩ text = (.err .tokenizerClosed, w) ∧
      Kitoken.Decode E w ⟨nil⟩ tokens = (.err .tokenizerClosed, w) ∧
      Embeddings.EmbedTokens E w ⟨nil⟩ tokens = (.err .embeddingsClosed, w)) ∧
    (∀ (e : Embedder) (s : List Nat),
      Embedder.Embed E w (e.Close w0).1 s = (.err .tokenizerClosed, w)) ∧
    GoError.tokenizerClosed.text = "tokenizer is closed" ∧
    GoError.embeddingsClosed.text = "embeddings is closed" := by
  have hk : ∀ t : Kitoken, (t.Free w0).1.ptr = nil := by
    intro t
    unfold Kitoken.Free
    split
    · rfl
    · rename_i h
      simpa using h
  have he : ∀ e : Embeddings, (e.Free w0).1.ptr = nil := by
    intro e
    unfold Embeddings.Free
    split
    · rfl
    · rename_i h
      simpa using h
  have enc : ∀ (t : Kitoken) (text : List Nat), t.ptr = nil →
      Kitoken.Encode E w t text = (.err .tokenizerClosed, w) := by
    intro t text h
    simp [Kitoken.Encode, h]
  have dec : ∀ (t : Kitoken) (tokens : List Nat), t.ptr = nil →
      Kitoken.Decode E w t tokens = (.err .tokenizerClosed, w) := by
    intro t tokens h
    simp [Kitoken.Decode, h]
  have emb : ∀ (e : Embeddings) (tokens : List Nat), e.ptr = nil →
      Embeddings.EmbedTokens E w e tokens = (.err .embeddingsClosed, w) := by
    intro e tokens h
    simp [Embeddings.EmbedTokens, h]
  refine ⟨hk, he, fun t text => enc _ text (hk t), fun t tokens => dec _ tokens (hk t),
    fun e tokens => emb _ tokens (he e), fun text tokens =>
      ⟨enc _ text rfl, dec _ tokens rfl, emb _ tokens rfl⟩, ?_, rfl, rfl⟩
  intro e s
  have h1 : (e.Close w0).1.tokenizer = (e.tokenizer.Free w0).1 := rfl
  unfold Embedder.Embed
  rw [h1, enc _ s (hk e.tokenizer)]

/-! ## Idempotent release (C2) -/

/-- C2: `Free` after `Free` changes neither the facade nor the world; one or
two calls of `Free` add to the trace exactly one destroy call on the handle
when it was live and nothing when it was nil, so no handle sees more than one
destroy call; `Close` after `Close` changes nothing, and `Close` calls the
destroy primitive only for the facades whose handle is still live. `Free` and
`Close` return no error. -/
theorem C2_release_is_idempotent (w : World) :
    (∀ t : Kitoken, Kitoken.Free (t.Free w).2 (t.Free w).1 = t.Free w) ∧
    (∀ e : Embeddings, Embeddings.Free (e.Free w).2 (e.Free w).1 = e.Free w) ∧
    (∀ t : Kitoken, (Kitoken.Free (t.Free w).2 (t.Free w).1).2.trace =
      w.trace ++ (if t.ptr = nil then [] else [Event.kitoken_free t.ptr])) ∧
    (∀ e : Embeddings, (Embeddings.Free (e.Free w).2 (e.Free w).1).2.trace =
      w.trace ++ (if e.ptr = nil then [] else [Event.embeddings_free e.ptr])) ∧
    (∀ (t : Kitoken) (p : Ptr),
      destroyCallsOf p (Kitoken.Free (t.Free w).2 (t.Free w).1).2.trace
        ≤ destroyCallsOf p w.trace + 1) ∧
    (∀ (e : Embeddings) (p : Ptr),
      destroyCallsOf p (Embeddings.Free (e.Free w).2 (e.Free w).1).2.trace
        ≤ destroyCallsOf p w.trace + 1) ∧
    (∀ e : Embedder, Embedder.Close (e.Close w).2 (e.Close w).1 = e.Close w) ∧
    (∀ e : Embedder, (e.Close w).2.trace =
      w.trace ++ (if e.tokenizer.ptr = nil then [] else [Event.kitoken_free e.tokenizer.ptr])
        ++ (if e.embeddings.ptr = nil then [] else [Event.embeddings_free e.embeddings.ptr])) ∧
    (∀ e : Embedder, e.tokenizer.ptr = nil → e.embeddings.ptr = nil → e.Close w = (e, w)) := by
  have kk : ∀ (v : World) (t : Kitoken), Kitoken.Free (t.Free v).2 (t.Free v).1 = t.Free v := by
    intro v t
    by_cases h : t.ptr = nil
    · simp [Kitoken.Free, h]
    · simp [Kitoken.Free, h]
  have ee : ∀ (v : World) (e : Embeddings),
      Embeddings.Free (e.Free v).2 (e.Free v).1 = e.Free v := by
    intro v e
    by_cases h : e.ptr = nil
    · simp [Embeddings.Free, h]
    · simp [Embeddings.Free, h]
  have kt : ∀ (v : World) (t : Kitoken), (t.Free v).2.trace =
      v.trace ++ (if t.ptr = nil then [] else [Event.kitoken_free t.ptr]) := by
    intro v t
    by_cases h : t.ptr = nil
    · simp [Kitoken.Free, h]
    · simp [Kitoken.Free, h]
  have et : ∀ (v : World) (e : Embeddings), (e.Free v).2.trace =
      v.trace ++ (if e.ptr = nil then [] else [Event.embeddings_free e.ptr]) := by
    intro v e
    by_cases h : e.ptr = nil
    · simp [Embeddings.Free, h]
    · simp [Embeddings.Free, h]
  have kn : ∀ (v : World) (t : Kitoken), t.ptr = nil → t.Free v = (t, v) := by
    intro v t h
    simp [Kitoken.Free, h]
  have en : ∀ (v : World) (e : Embeddings), e.ptr = nil → e.Free v = (e, v) := by
    intro v e h
    simp [Embeddings.Free, h]
  have kp : ∀ (v : World) (t : Kitoken), (t.Free v).1.ptr = nil := by
    intro v t
    by_cases h : t.ptr = nil
    · simp [Kitoken.Free, h]
    · simp [Kitoken.Free, h]
  have ep : ∀ (v : World) (e : Embeddings), (e.Free v).1.ptr = nil := by
    intro v e
    by_cases h : e.ptr = nil
    · simp [Embeddings.Free, h]
    · simp [Embeddings.Free, h]
  refine ⟨kk w, ee w, ?_, ?_, ?_, ?_, ?_, ?_, ?_⟩
  · intro t
    rw [kk, kt]
  · intro e
    rw [ee, et]
  · intro t p
    rw [kk, kt]
    by_cases h : t.ptr = nil
    · simp [h]
    · simp only [h, if_false, destroyCallsOf, List.countP_append]
      exact Nat.add_le_add_left (List.countP_le_length _) _
  · intro e p
    rw [ee, et]
    by_cases h : e.ptr = nil
    · simp [h]
    · simp only [h, if_false, destroyCallsOf, List.countP_append]
      exact Nat.add_le_add_left (List.countP_le_length _) _
  · intro e
    unfold Embedder.Close
    simp only
    rw [kn _ _ (kp w e.tokenizer), en _ _ (ep _ e.embeddings)]
  · intro e
    unfold Embedder.Close
    simp only
    rw [et, kt]
  · intro e h1 h2
    unfold Embedder.Close
    simp only
    rw [kn _ _ h1, en _ _ h2]

/-! ## Construction (C6) -/

/-- C6: `NewKitoken` and `NewEmbeddings` on an empty blob return the
invalid-input error without touching the world; on a non-empty blob they make
exactly one foreign constructor call, return the construction-failed error when
it returns null, and return a facade exactly when it returns a non-null
handle, the facade then holding that very handle. -/
theorem C6_constructors_return_handle_or_error (E : Env) (w : World) (data : List Nat) :
    ((data = [] → NewKitoken E w data = (.err .emptyModelData, w)) ∧
     (data ≠ [] → E.kitoken_new w data = nil →
        (NewKitoken E w data).1 = .err .failedCreateTokenizer) ∧
     ((∃ tk, (NewKitoken E w data).1 = .ok tk) ↔ (data ≠ [] ∧ E.kitoken_new w data ≠ nil)) ∧
     (∀ tk, (NewKitoken E w data).1 = .ok tk →
        tk.ptr = E.kitoken_new w data ∧ tk.ptr ≠ nil) ∧
     (data ≠ [] → (NewKitoken E w data).2.trace =
        w.trace ++ [Event.kitoken_new data (E.kitoken_new w data)])) ∧
    ((data = [] → NewEmbeddings E w data = (.err .emptyEmbeddingsModelData, w)) ∧
     (data ≠ [] → E.embeddings_new w data = nil →
        (NewEmbeddings E w data).1 = .err .failedCreateEmbeddings) ∧
     ((∃ emb, (NewEmbeddings E w data).1 = .ok emb) ↔
        (data ≠ [] ∧ E.embeddings_new w data ≠ nil)) ∧
     (∀ emb, (NewEmbeddings E w data).1 = .ok emb →
        emb.ptr = E.embeddings_new w data ∧ emb.ptr ≠ nil) ∧
     (data ≠ [] → (NewEmbeddings E w data).2.trace =
        w.trace ++ [Event.embeddings_new data (E.embeddings_new w data)])) := by
  constructor
  · by_cases hd : data = []
    · subst hd
      simp [NewKitoken]
    · have hl : ¬ data.length = 0 := by simpa using hd
      by_cases hp : E.kitoken_new w data = nil
      · simp [NewKitoken, hd, hl, hp]
      · simp [NewKitoken, hd, hl, hp]
  · by_cases hd : data = []
    · subst hd
      simp [NewEmbeddings]
    · have hl : ¬ data.length = 0 := by simpa using hd
      by_cases hp : E.embeddings_new w data = nil
      · simp [NewEmbeddings, hd, hl, hp]
      · simp [NewEmbeddings, hd, hl, hp]

/-! ## Empty input (C3, C9) -/

/-- C3 (what the code does): on a usable tokenizer `Encode("")` takes the
address `&b[0]` of the first byte of an empty slice and panics with an index
out of range; it returns neither an empty token sequence nor an error. The
world is untouched: the panic comes before the foreign call. -/
theorem C3_Encode_empty_text_panics (E : Env) (w : World) (t : Kitoken) (h : t.ptr ≠ nil) :
    Kitoken.Encode E w t [] = (.panic .indexOutOfRange, w) := by
  simp [Kitoken.Encode, h]

theorem C3_Encode_empty_text_panics_witness :
    Kitoken.Encode demoEnv World.empty ⟨11⟩ [] = (.panic .indexOutOfRange, World.empty) :=
  C3_Encode_empty_text_panics demoEnv World.empty ⟨11⟩ (by decide)

/-- C9: on a usable facade `Decode` of the empty token sequence returns the
empty text and `EmbedTokens` of the empty token sequence returns the empty
result, both without error and with the world exactly as it was: no foreign
call, no deallocation, the handle still live. The facade itself is not
written by either operation. -/
theorem C9_empty_tokens_short_circuit (E : Env) (w : World) (t : Kitoken) (e : Embeddings)
    (ht : t.ptr ≠ nil) (he : e.ptr ≠ nil) :
    Kitoken.Decode E w t [] = (.ok [], w) ∧
    Embeddings.EmbedTokens E w e [] = (.ok [], w) := by
  constructor
  · simp [Kitoken.Decode, ht]
  · simp [Embeddings.EmbedTokens, he]

theorem C9_empty_tokens_short_circuit_witness :
    Kitoken.Decode demoEnv World.empty ⟨11⟩ [] = (.ok [], World.empty) ∧
    Embeddings.EmbedTokens demoEnv World.empty ⟨22⟩ [] = (.ok [], World.empty) :=
  C9_empty_tokens_short_circuit demoEnv World.empty ⟨11⟩ ⟨22⟩ (by decide) (by decide)

/-! ## The encode-then-embed chain (C8) -/

/-- C8: `Embed` is the sequential composition of `Encode` and `EmbedTokens`:
when `Encode` fails, `Embed` returns that very error in the world `Encode`
left, which holds no more `embeddings_embed` calls than before; when `Encode`
returns tokens, `Embed` returns exactly what `EmbedTokens` returns on them. -/
theorem C8_Embed_is_Encode_then_EmbedTokens (E : Env) (w : World) (e : Embedder)
    (s : List Nat) :
    Embedder.Embed E w e s = Embed_spec E w e s ∧
    (∀ err w1, Kitoken.Encode E w e.tokenizer s = (.err err, w1) →
      Embedder.Embed E w e s = (.err err, w1) ∧ embedCalls w1.trace = embedCalls w.trace) ∧
    (∀ tokens w1, Kitoken.Encode E w e.tokenizer s = (.ok tokens, w1) →
      Embedder.Embed E w e s = Embeddings.EmbedTokens E w1 e.embeddings tokens) := by
  refine ⟨?_, ?_, ?_⟩
  · unfold Embedder.Embed Embed_spec andThen
    dsimp only
    generalize Kitoken.Encode E w e.tokenizer s = r
    rcases r with ⟨_ | _ | _, w1⟩ <;> rfl
  · intro err w1 h
    constructor
    · unfold Embedder.Embed
      rw [h]
    · have := Encode_embedCalls E w e.tokenizer s
      rw [h] at this
      exact this
  · intro tokens w1 h
    unfold Embedder.Embed
    rw [h]

/-! ## Construction of the Embedder (C4) -/

theorem NewEmbeddings_ok (E : Env) (w : World) (data : List Nat) (hne : data ≠ [])
    (hp : E.embeddings_new w data ≠ nil) :
    NewEmbeddings E w data =
      (.ok ⟨E.embeddings_new w data⟩,
        ⟨E.embeddings_new w data :: w.handles, w.heap, E.embeddings_new w data :: w.finalizers,
          w.trace ++ [Event.embeddings_new data (E.embeddings_new w data)]⟩) := by
  have hl : ¬ data.length = 0 := by simpa using hne
  simp [NewEmbeddings, hl, hp, World.log, World.addHandle, World.setFinalizer]

/-- When `NewEmbedder` fails on the model side (file unreadable, blob empty or
rejected) no foreign handle is live that was not live before. -/
theorem NewEmbedder_model_failure_keeps_handles (E : Env) (w : World)
    (modelpath tokenizerpath : String)
    (hm : ∀ data, E.readFile modelpath = .ok data → data = [] ∨ E.embeddings_new w data = nil) :
    (∃ err, (NewEmbedder E w modelpath tokenizerpath).1 = .err err) ∧
    (NewEmbedder E w modelpath tokenizerpath).2.handles = w.handles := by
  unfold NewEmbedder
  cases hr : E.readFile modelpath with
  | error err => exact ⟨⟨err, rfl⟩, rfl⟩
  | ok data =>
    rcases hm data hr with h | h
    · subst h
      simp [NewEmbeddings]
    · by_cases hd : data.length = 0
      · simp [NewEmbeddings, hd]
      · simp [NewEmbeddings, hd, h, World.addHandle, World.log]

/-- C4 (what the code does): when the model is accepted and the tokenizer side
then fails (file unreadable, blob empty, or blob rejected by `kitoken_new`),
`NewEmbedder` returns the error while the Embeddings handle it created is still
live: one more live handle than before the call, and no destroy call in the
trace. Only the finalizer registered by `NewEmbeddings` is left to release it. -/
theorem C4_NewEmbedder_leaves_embeddings_handle_live (E : Env) (w : World)
    (modelpath tokenizerpath : String) (modeldata : List Nat)
    (hm : E.readFile modelpath = .ok modeldata) (hne : modeldata ≠ [])
    (hp : E.embeddings_new w modeldata ≠ nil)
    (hk : ∀ data, E.readFile tokenizerpath = .ok data →
      data = [] ∨ E.kitoken_new (NewEmbeddings E w modeldata).2 data = nil) :
    (∃ err, (NewEmbedder E w modelpath tokenizerpath).1 = .err err) ∧
    (NewEmbedder E w modelpath tokenizerpath).2.handles =
      E.embeddings_new w modeldata :: w.handles ∧
    (NewEmbedder E w modelpath tokenizerpath).2.liveHandles = w.liveHandles + 1 ∧
    destroyCalls (NewEmbedder E w modelpath tokenizerpath).2.trace = destroyCalls w.trace := by
  have key : (∃ err, (NewEmbedder E w modelpath tokenizerpath).1 = .err err) ∧
      (NewEmbedder E w modelpath tokenizerpath).2.handles =
        E.embeddings_new w modeldata :: w.handles ∧
      destroyCalls (NewEmbedder E w modelpath tokenizerpath).2.trace = destroyCalls w.trace := by
    unfold NewEmbedder
    rw [hm]
    dsimp only
    rw [NewEmbeddings_ok E w modeldata hne hp] at hk ⊢
    dsimp only at hk ⊢
    cases hr : E.readFile tokenizerpath with
    | error err =>
      exact ⟨⟨err, rfl⟩, rfl, by simp [destroyCalls, Event.isDestroy]⟩
    | ok data =>
      dsimp only
      rcases hk data hr with h | h
      · subst h
        simp [NewKitoken, destroyCalls, Event.isDestroy]
      · by_cases hd : data.length = 0
        · simp [NewKitoken, hd, destroyCalls, Event.isDestroy]
        · simp [NewKitoken, hd, h, World.addHandle, World.log, destroyCalls, Event.isDestroy]
  refine ⟨key.1, key.2.1, ?_, key.2.2⟩
  unfold World.liveHandles
  rw [key.2.1]
  rfl

theorem C4_NewEmbedder_leaves_embeddings_handle_live_witness :
    (∃ err, (NewEmbedder demoEnv World.empty "model.rten" "bad.kitoken").1 = .err err) ∧
    (NewEmbedder demoEnv World.empty "model.rten" "bad.kitoken").2.handles =
      demoEnv.embeddings_new World.empty [1, 2, 3, 4] :: World.empty.handles ∧
    (NewEmbedder demoEnv World.empty "model.rten" "bad.kitoken").2.liveHandles =
      World.empty.liveHandles + 1 ∧
    destroyCalls (NewEmbedder demoEnv World.empty "model.rten" "bad.kitoken").2.trace =
      destroyCalls World.empty.trace :=
  C4_NewEmbedder_leaves_embeddings_handle_live demoEnv World.empty "model.rten" "bad.kitoken"
    [1, 2, 3, 4] rfl (by decide) (by decide) (by
      intro data h
      have hd : data = [0, 0, 0, 0] := by
        have h2 : demoEnv.readFile "bad.kitoken" = .ok [0, 0, 0, 0] := rfl
        rw [h2] at h
        injection h with h3
        exact h3.symm
      subst hd
      exact Or.inr (by decide))

/-- The three tokenizer-side failures of `NewEmbedder` in the toy environment:
each returns the error and leaves the Embeddings handle `22` live. -/
theorem NewEmbedder_tokenizer_failures_eval :
    NewEmbedder demoEnv World.empty "model.rten" "missing.kitoken" =
      (.err (.readFile "missing.kitoken"),
        ⟨[22], [], [22], [.embeddings_new [1, 2, 3, 4] 22]⟩) ∧
    NewEmbedder demoEnv World.empty "model.rten" "empty.kitoken" =
      (.err .emptyModelData, ⟨[22], [], [22], [.embeddings_new [1, 2, 3, 4] 22]⟩) ∧
    NewEmbedder demoEnv World.empty "model.rten" "bad.kitoken" =
      (.err .failedCreateTokenizer,
        ⟨[22], [], [22], [.embeddings_new [1, 2, 3, 4] 22, .kitoken_new [0, 0, 0, 0] 0]⟩) ∧
    NewEmbedder demoEnv World.empty "bad.rten" "bad.kitoken" =
      (.err .failedCreateEmbeddings, ⟨[], [], [], [.embeddings_new [0, 0, 0, 0] 0]⟩) := by
  decide

/-! ## Inbound transfers (C7) -/

theorem inbound_world (w : World) (p : Ptr) (cells : List Nat) (c a b : Event) :
    ((((w.log c).alloc p cells).log a).log b).release p =
      ⟨w.handles, w.heap, w.finalizers, w.trace ++ [c, a, b]⟩ := by
  by_cases hp : p = nil
  · simp [World.log, World.alloc, World.release, hp]
  · simp [World.log, World.alloc, World.release, hp, List.eraseP_cons]

theorem Slice_alloc (w : World) (p : Ptr) (cells : List Nat) (n : Nat)
    (h1 : n ≤ cells.length) (h3 : p = nil → n = 0) :
    ∃ cArr, Slice (w.alloc p cells) p (n : Int) = .ok cArr ∧
      copyLoop cArr n = some (cells.take n) := by
  have hn : ¬ ((n : Int) < 0) := by omega
  by_cases hp : p = nil
  · have h0 : n = 0 := h3 hp
    subst h0
    refine ⟨[], ?_, by simp [copyLoop]⟩
    simp [Slice, hp]
  · refine ⟨cells, ?_, copyLoop_take cells n h1⟩
    unfold Slice
    rw [if_neg hn, if_neg hp, lookup_alloc _ _ _ hp]
    rfl

theorem Encode_success (E : Env) (w : World) (t : Kitoken) (text : List Nat)
    (ht : t.ptr ≠ nil) (hx : text ≠ [])
    (hs : (E.kitoken_encode w t.ptr text).status = 0)
    (hwf : (E.kitoken_encode w t.ptr text).wellFormed 4) :
    Kitoken.Encode E w t text =
      (.ok ((E.kitoken_encode w t.ptr text).cells.take (E.kitoken_encode w t.ptr text).outLen),
        ⟨w.handles, w.heap, w.finalizers, w.trace ++
          [.kitoken_encode t.ptr text 0,
           .read (E.kitoken_encode w t.ptr text).outPtr (E.kitoken_encode w t.ptr text).outLen,
           .dealloc (E.kitoken_encode w t.ptr text).outPtr
             (4 * (E.kitoken_encode w t.ptr text).outLen)]⟩) := by
  have hlen : ¬ text.length = 0 := by simpa using hx
  unfold Kitoken.Encode
  rw [if_neg ht]
  dsimp only
  rw [if_neg hlen]
  generalize E.kitoken_encode w t.ptr text = r at hs hwf ⊢
  obtain ⟨status, outPtr, outLen, cells⟩ := r
  obtain ⟨h1, h2, h3⟩ := hwf
  dsimp only at hs h1 h2 h3 ⊢
  subst hs
  have hi : int outLen = (outLen : Int) := int_of_small _ (by omega)
  obtain ⟨cArr, hsl, hcp⟩ := Slice_alloc
    (w.log (.kitoken_encode t.ptr text 0)) outPtr cells outLen h1 h3
  rw [if_neg (by simp), hi, hsl]
  dsimp only
  rw [Int.toNat_natCast, hcp]
  dsimp only
  rw [size_t_natCast _ (by omega), mulSize_of_small _ _ (by omega), inbound_world,
    Nat.mul_comm outLen 4]

theorem Encode_failure (E : Env) (w : World) (t : Kitoken) (text : List Nat)
    (ht : t.ptr ≠ nil) (hx : text ≠ [])
    (hs : (E.kitoken_encode w t.ptr text).status ≠ 0) :
    (Kitoken.Encode E w t text).1 = .err .encodingFailed ∧
    (Kitoken.Encode E w t text).2.trace =
      w.trace ++ [.kitoken_encode t.ptr text (E.kitoken_encode w t.ptr text).status] := by
  have hlen : ¬ text.length = 0 := by simpa using hx
  unfold Kitoken.Encode
  rw [if_neg ht]
  dsimp only
  rw [if_neg hlen, if_pos hs]
  exact ⟨rfl, by simp⟩

theorem Decode_success (E : Env) (w : World) (t : Kitoken) (tokens : List Nat)
    (ht : t.ptr ≠ nil) (hx : tokens ≠ [])
    (hs : (E.kitoken_decode w t.ptr tokens).status = 0)
    (hwf : (E.kitoken_decode w t.ptr tokens).wellFormed 1) :
    Kitoken.Decode E w t tokens =
      (.ok ((E.kitoken_decode w t.ptr tokens).cells.take
          (E.kitoken_decode w t.ptr tokens).outLen),
        ⟨w.handles, w.heap, w.finalizers, w.trace ++
          [.kitoken_decode t.ptr tokens 0,
           .read (E.kitoken_decode w t.ptr tokens).outPtr
             (E.kitoken_decode w t.ptr tokens).outLen,
           .dealloc (E.kitoken_decode w t.ptr tokens).outPtr
             (E.kitoken_decode w t.ptr tokens).outLen]⟩) := by
  have hlen : ¬ tokens.length = 0 := by simpa using hx
  unfold Kitoken.Decode
  rw [if_neg ht, if_neg hlen]
  dsimp only
  generalize E.kitoken_decode w t.ptr tokens = r at hs hwf ⊢
  obtain ⟨status, outPtr, outLen, cells⟩ := r
  obtain ⟨h1, h2, h3⟩ := hwf
  dsimp only at hs h1 h2 h3 ⊢
  subst hs
  have hi : int outLen = (outLen : Int) := int_of_small _ (by omega)
  obtain ⟨cArr, hsl, hcp⟩ := Slice_alloc
    (w.log (.kitoken_decode t.ptr tokens 0)) outPtr cells outLen h1 h3
  rw [if_neg (by simp), hi, hsl]
  dsimp only
  rw [Int.toNat_natCast, hcp]
  dsimp only
  rw [size_t_natCast _ (by omega), inbound_world]

theorem Decode_failure (E : Env) (w : World) (t : Kitoken) (tokens : List Nat)
    (ht : t.ptr ≠ nil) (hx : tokens ≠ [])
    (hs : (E.kitoken_decode w t.ptr tokens).status ≠ 0) :
    (Kitoken.Decode E w t tokens).1 = .err .decodingFailed ∧
    (Kitoken.Decode E w t tokens).2.trace =
      w.trace ++ [.kitoken_decode t.ptr tokens (E.kitoken_decode w t.ptr tokens).status] := by
  have hlen : ¬ tokens.length = 0 := by simpa using hx
  unfold Kitoken.Decode
  rw [if_neg ht, if_neg hlen]
  dsimp only
  rw [if_pos hs]
  exact ⟨rfl, by simp⟩

theorem int_zero : int 0 = 0 := int_of_small 0 (by omega)

theorem size_t_zero : size_t 0 = 0 := size_t_natCast 0 (by omega)

theorem mulInt_int (a b : Nat) (h : a * b < 9223372036854775808) :
    mulInt (int a) (int b) = ((a * b : Nat) : Int) := by
  rcases Nat.eq_zero_or_pos a with ha | ha
  · subst ha
    unfold mulInt
    rw [int_zero, Int.zero_mul, size_t_zero, Nat.zero_mul, int_zero]
    rfl
  · rcases Nat.eq_zero_or_pos b with hb | hb
    · subst hb
      unfold mulInt
      rw [int_zero, Int.mul_zero, size_t_zero, Nat.mul_zero, int_zero]
      rfl
    · have h1 : a ≤ a * b := Nat.le_mul_of_pos_right a hb
      have h2 : b ≤ a * b := Nat.le_mul_of_pos_left b ha
      rw [int_of_small a (by omega), int_of_small b (by omega), mulInt_of_small a b h]

theorem EmbedTokens_success (E : Env) (w : World) (e : Embeddings) (tokens : List Nat)
    (he : e.ptr ≠ nil) (hx : tokens ≠ [])
    (hs : (E.embeddings_embed w e.ptr (tokens.map (fun t => int32_t t))).status = 0)
    (hwf : (E.embeddings_embed w e.ptr (tokens.map (fun t => int32_t t))).wellFormed) :
    Embeddings.EmbedTokens E w e tokens =
      (.ok ((E.embeddings_embed w e.ptr (tokens.map (fun t => int32_t t))).cells.take
          ((E.embeddings_embed w e.ptr (tokens.map (fun t => int32_t t))).outCount *
            (E.embeddings_embed w e.ptr (tokens.map (fun t => int32_t t))).outDim)),
        ⟨w.handles, w.heap, w.finalizers, w.trace ++
          [.embeddings_embed e.ptr (tokens.map (fun t => int32_t t)) 0,
           .read (E.embeddings_embed w e.ptr (tokens.map (fun t => int32_t t))).outPtr
             ((E.embeddings_embed w e.ptr (tokens.map (fun t => int32_t t))).outCount *
              (E.embeddings_embed w e.ptr (tokens.map (fun t => int32_t t))).outDim),
           .dealloc_f32 (E.embeddings_embed w e.ptr (tokens.map (fun t => int32_t t))).outPtr
             ((E.embeddings_embed w e.ptr (tokens.map (fun t => int32_t t))).outCount *
              (E.embeddings_embed w e.ptr (tokens.map (fun t => int32_t t))).outDim)]⟩) := by
  have hlen : ¬ tokens.length = 0 := by simpa using hx
  unfold Embeddings.EmbedTokens
  rw [if_neg he, if_neg hlen]
  dsimp only
  generalize E.embeddings_embed w e.ptr (tokens.map (fun t => int32_t t)) = r at hs hwf ⊢
  obtain ⟨status, outPtr, outCount, outDim, cells⟩ := r
  obtain ⟨h1, h2, h3⟩ := hwf
  dsimp only at hs h1 h2 h3 ⊢
  subst hs
  have hi : mulInt (int outCount) (int outDim) = ((outCount * outDim : Nat) : Int) :=
    mulInt_int _ _ (by omega)
  obtain ⟨cArr, hsl, hcp⟩ := Slice_alloc
    (w.log (.embeddings_embed e.ptr (tokens.map (fun t => int32_t t)) 0)) outPtr cells
    (outCount * outDim) h1 h3
  rw [if_neg (by simp), hi, hsl]
  dsimp only
  rw [Int.toNat_natCast, hcp]
  dsimp only
  rw [size_t_natCast _ (by omega), inbound_world]

theorem EmbedTokens_failure (E : Env) (w : World) (e : Embeddings) (tokens : List Nat)
    (he : e.ptr ≠ nil) (hx : tokens ≠ [])
    (hs : (E.embeddings_embed w e.ptr (tokens.map (fun t => int32_t t))).status ≠ 0) :
    (Embeddings.EmbedTokens E w e tokens).1 = .err .embeddingFailed ∧
    (Embeddings.EmbedTokens E w e tokens).2.trace =
      w.trace ++ [.embeddings_embed e.ptr (tokens.map (fun t => int32_t t))
        (E.embeddings_embed w e.ptr (tokens.map (fun t => int32_t t))).status] := by
  have hlen : ¬ tokens.length = 0 := by simpa using hx
  unfold Embeddings.EmbedTokens
  rw [if_neg he, if_neg hlen]
  dsimp only
  rw [if_pos hs]
  exact ⟨rfl, by simp⟩


theorem Encode_trace_shape (E : Env) (w : World) (t : Kitoken) (text : List Nat)
    (ht : t.ptr ≠ nil) (hx : text ≠ []) :
    (∃ tokens n size, (Kitoken.Encode E w t text).1 = .ok tokens ∧
      (Kitoken.Encode E w t text).2.trace = w.trace ++
        [.kitoken_encode t.ptr text 0,
         .read (E.kitoken_encode w t.ptr text).outPtr n,
         .dealloc (E.kitoken_encode w t.ptr text).outPtr size]) ∨
    ((∀ tokens, (Kitoken.Encode E w t text).1 ≠ .ok tokens) ∧
      (Kitoken.Encode E w t text).2.trace =
        w.trace ++ [.kitoken_encode t.ptr text (E.kitoken_encode w t.ptr text).status]) := by
  have hlen : ¬ text.length = 0 := by simpa using hx
  unfold Kitoken.Encode
  rw [if_neg ht]
  dsimp only
  rw [if_neg hlen]
  split
  · exact Or.inr ⟨fun _ h => by injection h, by simp⟩
  · rename_i hs
    have hs0 : (E.kitoken_encode w t.ptr text).status = 0 := by simpa using hs
    split
    · exact Or.inr ⟨fun _ h => by injection h, by simp⟩
    · split
      · exact Or.inr ⟨fun _ h => by injection h, by simp⟩
      · exact Or.inl ⟨_, _, _, rfl, by
          simp only [hs0, log_trace, release_trace, alloc_trace, List.append_assoc,
            List.cons_append, List.nil_append]
          rfl⟩

theorem Decode_trace_shape (E : Env) (w : World) (t : Kitoken) (tokens : List Nat)
    (ht : t.ptr ≠ nil) (hx : tokens ≠ []) :
    (∃ text n size, (Kitoken.Decode E w t tokens).1 = .ok text ∧
      (Kitoken.Decode E w t tokens).2.trace = w.trace ++
        [.kitoken_decode t.ptr tokens 0,
         .read (E.kitoken_decode w t.ptr tokens).outPtr n,
         .dealloc (E.kitoken_decode w t.ptr tokens).outPtr size]) ∨
    ((∀ text, (Kitoken.Decode E w t tokens).1 ≠ .ok text) ∧
      (Kitoken.Decode E w t tokens).2.trace =
        w.trace ++ [.kitoken_decode t.ptr tokens (E.kitoken_decode w t.ptr tokens).status]) := by
  have hlen : ¬ tokens.length = 0 := by simpa using hx
  unfold Kitoken.Decode
  rw [if_neg ht, if_neg hlen]
  dsimp only
  split
  · exact Or.inr ⟨fun _ h => by injection h, by simp⟩
  · rename_i hs
    have hs0 : (E.kitoken_decode w t.ptr tokens).status = 0 := by simpa using hs
    split
    · exact Or.inr ⟨fun _ h => by injection h, by simp⟩
    · split
      · exact Or.inr ⟨fun _ h => by injection h, by simp⟩
      · exact Or.inl ⟨_, _, _, rfl, by
          simp only [hs0, log_trace, release_trace, alloc_trace, List.append_assoc,
            List.cons_append, List.nil_append]
          rfl⟩

theorem EmbedTokens_trace_shape (E : Env) (w : World) (e : Embeddings) (tokens : List Nat)
    (he : e.ptr ≠ nil) (hx : tokens ≠ []) :
    (∃ result n len, (Embeddings.EmbedTokens E w e tokens).1 = .ok result ∧
      (Embeddings.EmbedTokens E w e tokens).2.trace = w.trace ++
        [.embeddings_embed e.ptr (tokens.map (fun t => int32_t t)) 0,
         .read (E.embeddings_embed w e.ptr (tokens.map (fun t => int32_t t))).outPtr n,
         .dealloc_f32 (E.embeddings_embed w e.ptr (tokens.map (fun t => int32_t t))).outPtr
           len]) ∨
    ((∀ result, (Embeddings.EmbedTokens E w e tokens).1 ≠ .ok result) ∧
      (Embeddings.EmbedTokens E w e tokens).2.trace =
        w.trace ++ [.embeddings_embed e.ptr (tokens.map (fun t => int32_t t))
          (E.embeddings_embed w e.ptr (tokens.map (fun t => int32_t t))).status]) := by
  have hlen : ¬ tokens.length = 0 := by simpa using hx
  unfold Embeddings.EmbedTokens
  rw [if_neg he, if_neg hlen]
  dsimp only
  split
  · exact Or.inr ⟨fun _ h => by injection h, by simp⟩
  · rename_i hs
    have hs0 : (E.embeddings_embed w e.ptr (tokens.map (fun t => int32_t t))).status = 0 := by
      simpa using hs
    split
    · exact Or.inr ⟨fun _ h => by injection h, by simp⟩
    · split
      · exact Or.inr ⟨fun _ h => by injection h, by simp⟩
      · exact Or.inl ⟨_, _, _, rfl, by
          simp only [hs0, log_trace, release_trace, alloc_trace, List.append_assoc,
            List.cons_append, List.nil_append]
          rfl⟩

/-- C7: on a usable facade and a non-empty input, when the foreign transform
call reports success and hands back a buffer that exists, the operation returns
the contents of that buffer as they were when the call returned, and the events
after the call are exactly one read of the buffer followed by exactly one
deallocation of it: `dealloc` with `4 × outLen` bytes in `Encode`, `dealloc`
with `outLen` bytes in `Decode`, `dealloc_f32` with `outCount × outDim`
elements in `EmbedTokens`; the heap of raw buffers is afterwards as it was
before the operation. When the foreign call reports failure the operation
returns its error and the trace ends with the call: no read, no deallocation.
Whatever the foreign call hands back, the events after the call are either
one read followed by one deallocation of `outPtr` with the primitive of the
operation (and then the operation returns a result) or none at all. -/
theorem C7_inbound_buffer_copied_then_released_once (E : Env) (w : World) (t : Kitoken)
    (e : Embeddings) (text tokens : List Nat)
    (ht : t.ptr ≠ nil) (he : e.ptr ≠ nil) (hx : text ≠ []) (hk : tokens ≠ []) :
    ((E.kitoken_encode w t.ptr text).status = 0 →
      (E.kitoken_encode w t.ptr text).wellFormed 4 →
      Kitoken.Encode E w t text =
        (.ok ((E.kitoken_encode w t.ptr text).cells.take
            (E.kitoken_encode w t.ptr text).outLen),
          ⟨w.handles, w.heap, w.finalizers, w.trace ++
            [.kitoken_encode t.ptr text 0,
             .read (E.kitoken_encode w t.ptr text).outPtr
               (E.kitoken_encode w t.ptr text).outLen,
             .dealloc (E.kitoken_encode w t.ptr text).outPtr
               (4 * (E.kitoken_encode w t.ptr text).outLen)]⟩)) ∧
    ((E.kitoken_encode w t.ptr text).status ≠ 0 →
      (Kitoken.Encode E w t text).1 = .err .encodingFailed ∧
      (Kitoken.Encode E w t text).2.trace =
        w.trace ++ [.kitoken_encode t.ptr text (E.kitoken_encode w t.ptr text).status]) ∧
    ((E.kitoken_decode w t.ptr tokens).status = 0 →
      (E.kitoken_decode w t.ptr tokens).wellFormed 1 →
      Kitoken.Decode E w t tokens =
        (.ok ((E.kitoken_decode w t.ptr tokens).cells.take
            (E.kitoken_decode w t.ptr tokens).outLen),
          ⟨w.handles, w.heap, w.finalizers, w.trace ++
            [.kitoken_decode t.ptr tokens 0,
             .read (E.kitoken_decode w t.ptr tokens).outPtr
               (E.kitoken_decode w t.ptr tokens).outLen,
             .dealloc (E.kitoken_decode w t.ptr tokens).outPtr
               (E.kitoken_decode w t.ptr tokens).outLen]⟩)) ∧
    ((E.kitoken_decode w t.ptr tokens).status ≠ 0 →
      (Kitoken.Decode E w t tokens).1 = .err .decodingFailed ∧
      (Kitoken.Decode E w t tokens).2.trace =
        w.trace ++ [.kitoken_decode t.ptr tokens (E.kitoken_decode w t.ptr tokens).status]) ∧
    ((E.embeddings_embed w e.ptr (tokens.map (fun t => int32_t t))).status = 0 →
      (E.embeddings_embed w e.ptr (tokens.map (fun t => int32_t t))).wellFormed →
      Embeddings.EmbedTokens E w e tokens =
        (.ok ((E.embeddings_embed w e.ptr (tokens.map (fun t => int32_t t))).cells.take
            ((E.embeddings_embed w e.ptr (tokens.map (fun t => int32_t t))).outCount *
              (E.embeddings_embed w e.ptr (tokens.map (fun t => int32_t t))).outDim)),
          ⟨w.handles, w.heap, w.finalizers, w.trace ++
            [.embeddings_embed e.ptr (tokens.map (fun t => int32_t t)) 0,
             .read (E.embeddings_embed w e.ptr (tokens.map (fun t => int32_t t))).outPtr
               ((E.embeddings_embed w e.ptr (tokens.map (fun t => int32_t t))).outCount *
                (E.embeddings_embed w e.ptr (tokens.map (fun t => int32_t t))).outDim),
             .dealloc_f32 (E.embeddings_embed w e.ptr (tokens.map (fun t => int32_t t))).outPtr
               ((E.embeddings_embed w e.ptr (tokens.map (fun t => int32_t t))).outCount *
                (E.embeddings_embed w e.ptr (tokens.map (fun t => int32_t t))).outDim)]⟩)) ∧
    ((E.embeddings_embed w e.ptr (tokens.map (fun t => int32_t t))).status ≠ 0 →
      (Embeddings.EmbedTokens E w e tokens).1 = .err .embeddingFailed ∧
      (Embeddings.EmbedTokens E w e tokens).2.trace =
        w.trace ++ [.embeddings_embed e.ptr (tokens.map (fun t => int32_t t))
          (E.embeddings_embed w e.ptr (tokens.map (fun t => int32_t t))).status]) ∧
    ((∃ toks n size, (Kitoken.Encode E w t text).1 = .ok toks ∧
        (Kitoken.Encode E w t text).2.trace = w.trace ++
          [.kitoken_encode t.ptr text 0,
           .read (E.kitoken_encode w t.ptr text).outPtr n,
           .dealloc (E.kitoken_encode w t.ptr text).outPtr size]) ∨
      ((∀ toks, (Kitoken.Encode E w t text).1 ≠ .ok toks) ∧
        (Kitoken.Encode E w t text).2.trace =
          w.trace ++ [.kitoken_encode t.ptr text (E.kitoken_encode w t.ptr text).status])) ∧
    ((∃ str n size, (Kitoken.Decode E w t tokens).1 = .ok str ∧
        (Kitoken.Decode E w t tokens).2.trace = w.trace ++
          [.kitoken_decode t.ptr tokens 0,
           .read (E.kitoken_decode w t.ptr tokens).outPtr n,
           .dealloc (E.kitoken_decode w t.ptr tokens).outPtr size]) ∨
      ((∀ str, (Kitoken.Decode E w t tokens).1 ≠ .ok str) ∧
        (Kitoken.Decode E w t tokens).2.trace =
          w.trace ++ [.kitoken_decode t.ptr tokens (E.kitoken_decode w t.ptr tokens).status])) ∧
    ((∃ result n len, (Embeddings.EmbedTokens E w e tokens).1 = .ok result ∧
        (Embeddings.EmbedTokens E w e tokens).2.trace = w.trace ++
          [.embeddings_embed e.ptr (tokens.map (fun t => int32_t t)) 0,
           .read (E.embeddings_embed w e.ptr (tokens.map (fun t => int32_t t))).outPtr n,
           .dealloc_f32 (E.embeddings_embed w e.ptr (tokens.map (fun t => int32_t t))).outPtr
             len]) ∨
      ((∀ result, (Embeddings.EmbedTokens E w e tokens).1 ≠ .ok result) ∧
        (Embeddings.EmbedTokens E w e tokens).2.trace =
          w.trace ++ [.embeddings_embed e.ptr (tokens.map (fun t => int32_t t))
            (E.embeddings_embed w e.ptr (tokens.map (fun t => int32_t t))).status])) :=
  ⟨Encode_success E w t text ht hx, Encode_failure E w t text ht hx,
   Decode_success E w t tokens ht hk, Decode_failure E w t tokens ht hk,
   EmbedTokens_success E w e tokens he hk, EmbedTokens_failure E w e tokens he hk,
   Encode_trace_shape E w t text ht hx, Decode_trace_shape E w t tokens ht hk,
   EmbedTokens_trace_shape E w e tokens he hk⟩

theorem C7_inbound_buffer_copied_then_released_once_witness :
    Kitoken.Encode demoEnv World.empty ⟨11⟩ [104, 105] =
      (.ok [104, 105], ⟨[], [], [],
        [.kitoken_encode 11 [104, 105] 0, .read 1000 2, .dealloc 1000 8]⟩) ∧
    Kitoken.Decode demoEnv World.empty ⟨11⟩ [7, 8, 9] =
      (.ok [7, 8, 9], ⟨[], [], [],
        [.kitoken_decode 11 [7, 8, 9] 0, .read 2000 3, .dealloc 2000 3]⟩) ∧
    Embeddings.EmbedTokens demoEnv World.empty ⟨22⟩ [7, 8, 9] =
      (.ok [7, 8, 8, 9, 9, 10], ⟨[], [], [],
        [.embeddings_embed 22 [7, 8, 9] 0, .read 3000 6, .dealloc_f32 3000 6]⟩) ∧
    (Kitoken.Encode demoEnv World.empty ⟨11⟩ [104, 255]).2.trace =
      [.kitoken_encode 11 [104, 255] 1] :=
  have h := C7_inbound_buffer_copied_then_released_once demoEnv World.empty ⟨11⟩ ⟨22⟩
    [104, 105] [7, 8, 9] (by decide) (by decide) (by decide) (by decide)
  have g := C7_inbound_buffer_copied_then_released_once demoEnv World.empty ⟨11⟩ ⟨22⟩
    [104, 255] [7, 8, 9] (by decide) (by decide) (by decide) (by decide)
  ⟨h.1 (by decide) (by unfold RawOut.wellFormed; decide),
   h.2.2.1 (by decide) (by unfold RawOut.wellFormed; decide),
   h.2.2.2.2.1 (by decide) (by unfold EmbedOut.wellFormed; decide),
   (g.2.1 (by decide)).2⟩

/-! ## Shape of the embedding matrix (C5) -/

/-- C5: on a usable Embeddings facade whose foreign `embeddings_embed` keeps
the contract of the specification for a model of dimension `d`, every
successful `EmbedTokens(s)` returns a flat sequence of length `len(s) × d`, each
of whose `len(s)` rows has length `d`; and for non-empty `s` the call does
succeed whenever the foreign call reports success. -/
theorem C5_EmbedTokens_result_has_len_times_dim (E : Env) (w : World) (e : Embeddings)
    (d : Nat) (s : List Nat) (he : e.ptr ≠ nil)
    (hc : embedContract d (s.map (fun t => int32_t t))
      (E.embeddings_embed w e.ptr (s.map (fun t => int32_t t)))) :
    (∀ result w', Embeddings.EmbedTokens E w e s = (.ok result, w') →
      result.length = s.length * d ∧ ∀ i, i < s.length → (row result d i).length = d) ∧
    (s ≠ [] → (E.embeddings_embed w e.ptr (s.map (fun t => int32_t t))).status = 0 →
      ∃ result w', Embeddings.EmbedTokens E w e s = (.ok result, w')) := by
  have rows : ∀ result : List Nat, result.length = s.length * d →
      ∀ i, i < s.length → (row result d i).length = d := by
    intro result hl i hi
    unfold row
    rw [List.length_take, List.length_drop, hl]
    have h1 : (i + 1) * d ≤ s.length * d := Nat.mul_le_mul_right d hi
    rw [Nat.succ_mul] at h1
    omega
  constructor
  · intro result w' hok
    have hlen : result.length = s.length * d := by
      by_cases hx : s = []
      · subst hx
        have h0 : Embeddings.EmbedTokens E w e [] = (.ok [], w) := by
          simp [Embeddings.EmbedTokens, he]
        rw [h0] at hok
        injection hok with h1 _
        injection h1 with h2
        subst h2
        simp
      · by_cases hs : (E.embeddings_embed w e.ptr (s.map (fun t => int32_t t))).status = 0
        · obtain ⟨hcount, hdim, hwf⟩ := hc hs
          rw [EmbedTokens_success E w e s he hx hs hwf] at hok
          injection hok with h1 _
          injection h1 with h2
          rw [← h2, List.length_take, hcount, hdim, List.length_map]
          have h3 := hwf.1
          rw [hcount, hdim, List.length_map] at h3
          omega
        · have hf := (EmbedTokens_failure E w e s he hx hs).1
          rw [hok] at hf
          injection hf
    exact ⟨hlen, rows result hlen⟩
  · intro hx hs
    obtain ⟨_, _, hwf⟩ := hc hs
    exact ⟨_, _, EmbedTokens_success E w e s he hx hs hwf⟩

theorem C5_EmbedTokens_result_has_len_times_dim_witness :
    Embeddings.EmbedTokens demoEnv World.empty ⟨22⟩ [7, 8, 9] =
      (.ok [7, 8, 8, 9, 9, 10], ⟨[], [], [],
        [.embeddings_embed 22 [7, 8, 9] 0, .read 3000 6, .dealloc_f32 3000 6]⟩) ∧
    [7, 8, 8, 9, 9, 10].length = [7, 8, 9].length * 2 ∧
    (∀ i, i < [7, 8, 9].length → (row [7, 8, 8, 9, 9, 10] 2 i).length = 2) :=
  have h := C5_EmbedTokens_result_has_len_times_dim demoEnv World.empty ⟨22⟩ 2 [7, 8, 9]
    (by decide) (fun _ => ⟨by decide, by decide, by unfold EmbedOut.wellFormed; decide⟩)
  have hev : Embeddings.EmbedTokens demoEnv World.empty ⟨22⟩ [7, 8, 9] =
      (.ok [7, 8, 8, 9, 9, 10], ⟨[], [], [],
        [.embeddings_embed 22 [7, 8, 9] 0, .read 3000 6, .dealloc_f32 3000 6]⟩) := by decide
  ⟨hev, h.1 _ _ hev⟩

/-! ## The id buffer handed to `embeddings_embed` (C10) -/

theorem int32_t_of_uint32 (t : Nat) (h : t < 4294967296) :
    int32_t t = if t < 2147483648 then (t : Int) else (t : Int) - 4294967296 := by
  unfold int32_t
  rw [Nat.mod_eq_of_lt h]

theorem int32_t_recover (t : Nat) (h : t < 4294967296) :
    (int32_t t % 4294967296).toNat = t := by
  rw [int32_t_of_uint32 t h]
  split <;> omega

theorem map_int32_t_recover (s : List Nat) (h : ∀ t ∈ s, t < 4294967296) :
    (s.map (fun t => int32_t t)).map (fun z => (z % 4294967296).toNat) = s := by
  induction s with
  | nil => rfl
  | cons a tl ih =>
    rw [List.map_cons, List.map_cons, int32_t_recover a (h a (List.mem_cons_self a tl)),
      ih (fun t ht => h t (List.mem_cons_of_mem a ht))]

theorem EmbedTokens_trace_starts_with_call (E : Env) (w : World) (e : Embeddings)
    (s : List Nat) (he : e.ptr ≠ nil) (hs : s ≠ []) :
    ∃ rest, (Embeddings.EmbedTokens E w e s).2.trace =
      w.trace ++ Event.embeddings_embed e.ptr (s.map (fun t => int32_t t))
        (E.embeddings_embed w e.ptr (s.map (fun t => int32_t t))).status :: rest := by
  have hlen : ¬ s.length = 0 := by simpa using hs
  unfold Embeddings.EmbedTokens
  rw [if_neg he, if_neg hlen]
  dsimp only
  split
  · exact ⟨[], by simp⟩
  · split
    · exact ⟨[], by simp⟩
    · split
      · exact ⟨[], by simp⟩
      · exact ⟨_, by simp; rfl⟩

/-- C10: for a non-empty sequence `s` of `uint32` token ids on a usable
facade, the first event `EmbedTokens` adds to the trace is the call of
`embeddings_embed` on the facade's handle with an id buffer `ids` such that
`ids` has the length of `s`, its `i`-th entry is `s[i]` when `s[i] < 2^31` and
`s[i] − 2^32` otherwise, `s` is recovered from `ids` by reduction modulo
`2^32`, and no other sequence of `uint32` ids is converted to the same
buffer. -/
theorem C10_id_buffer_is_signed_reinterpretation (E : Env) (w : World) (e : Embeddings)
    (s : List Nat) (he : e.ptr ≠ nil) (hs : s ≠ []) (hr : ∀ t ∈ s, t < 4294967296) :
    ∃ (ids : List Int) (rest : List Event),
      (Embeddings.EmbedTokens E w e s).2.trace =
        w.trace ++ Event.embeddings_embed e.ptr ids (E.embeddings_embed w e.ptr ids).status
          :: rest ∧
      ids.length = s.length ∧
      (∀ (i t : Nat), s[i]? = some t →
        ids[i]? = some (if t < 2147483648 then (t : Int) else (t : Int) - 4294967296)) ∧
      ids.map (fun z => (z % 4294967296).toNat) = s ∧
      (∀ s' : List Nat, (∀ t ∈ s', t < 4294967296) →
        s'.map (fun t => int32_t t) = ids → s' = s) := by
  obtain ⟨rest, hrest⟩ := EmbedTokens_trace_starts_with_call E w e s he hs
  refine ⟨s.map (fun t => int32_t t), rest, hrest, List.length_map _ _, ?_,
    map_int32_t_recover s hr, ?_⟩
  · intro i t hi
    rw [List.getElem?_map, hi, Option.map_some', int32_t_of_uint32 t (hr t (List.getElem?_mem hi))]
  · intro s' hr' heq
    rw [← map_int32_t_recover s' hr', heq, map_int32_t_recover s hr]

theorem C10_id_buffer_is_signed_reinterpretation_witness :
    ∃ (ids : List Int) (rest : List Event),
      (Embeddings.EmbedTokens demoEnv World.empty ⟨22⟩ [5, 4294967295, 2147483648]).2.trace =
        World.empty.trace ++ Event.embeddings_embed 22 ids
          (demoEnv.embeddings_embed World.empty 22 ids).status :: rest ∧
      ids.length = [5, 4294967295, 2147483648].length ∧
      (∀ (i t : Nat), [5, 4294967295, 2147483648][i]? = some t →
        ids[i]? = some (if t < 2147483648 then (t : Int) else (t : Int) - 4294967296)) ∧
      ids.map (fun z => (z % 4294967296).toNat) = [5, 4294967295, 2147483648] ∧
      (∀ s' : List Nat, (∀ t ∈ s', t < 4294967296) →
        s'.map (fun t => int32_t t) = ids → s' = [5, 4294967295, 2147483648]) :=
  C10_id_buffer_is_signed_reinterpretation demoEnv World.empty ⟨22⟩
    [5, 4294967295, 2147483648] (by decide) (by decide) (by decide)

/-- The id buffer of the toy run above: `2^32 − 1` goes to `−1` and `2^31` to `−2^31`. -/
theorem EmbedTokens_id_buffer_eval :
    (Embeddings.EmbedTokens demoEnv World.empty ⟨22⟩ [5, 4294967295, 2147483648]).2.trace =
      [.embeddings_embed 22 [5, -1, -2147483648] 1] := by
  decide

end rtenkit
